import Mathlib

/-!
Shallow embedding of `wordpress-vite-plugin` (src/index.ts) and verification of
its natural-language specification.

JavaScript values that the source manipulates are modelled as follows:

* `string`                         → `String`
* optional fields (may be absent)  → `Option _`  (`none` = the field is absent /
                                     `undefined`; `some s` = the field is present)
* `string | string[]`              → `InputVal`
* the loosely typed `refresh` union→ `RefreshVal`
* thrown exceptions                → `Except String _`
* in-place mutation of the config  → the function returns the final state of its
                                     argument next to its result (state passing)
* the filesystem                   → `FsState := String → Option String`
                                     (`none` = path absent, `some c` = file with
                                     contents `c`)

JS string truthiness (`""` is falsy) is spelled out explicitly wherever the
source relies on it.
-/

/-! ## Characters, trimming and slash helpers (models of JS string methods) -/

/-- Model of JavaScript `String.prototype.trim` on a character list:
whitespace removed from both ends. -/
def jsTrimL (l : List Char) : List Char :=
  ((l.dropWhile Char.isWhitespace).reverse.dropWhile Char.isWhitespace).reverse

/-- Model of JavaScript `.trim()` on strings. -/
def jsTrim (s : String) : String := String.mk (jsTrimL s.data)

/-- Model of `.replace(/^\/+/, "")`: drop every leading `'/'`. -/
def dropLeadingSlashesL (l : List Char) : List Char := l.dropWhile (fun ch => ch = '/')

/-- Model of `.replace(/\/+$/, "")`: drop every trailing `'/'`. -/
def dropTrailingSlashesL (l : List Char) : List Char :=
  (l.reverse.dropWhile (fun ch => ch = '/')).reverse

/-- The normalization the source applies to a user supplied `publicDirectory`:
`.trim().replace(/^\/+/, "")` (src/index.ts lines 389-392). -/
def trimPublic (s : String) : String := String.mk (dropLeadingSlashesL (jsTrimL s.data))

/-- The normalization the source applies to a user supplied `buildDirectory` and
`ssrOutputDirectory`: `.trim().replace(/^\/+/, "").replace(/\/+$/, "")`
(src/index.ts lines 401-405 and 414-418). -/
def trimDir (s : String) : String :=
  String.mk (dropTrailingSlashesL (dropLeadingSlashesL (jsTrimL s.data)))

/-- True iff `s` begins with a slash. -/
abbrev startsWithSlash (s : String) : Prop := s.data.head? = some '/'

/-- True iff `s` ends with a slash. -/
abbrev endsWithSlash (s : String) : Prop := s.data.getLast? = some '/'

/-! ## Model of the Node `path` functions used by the source

The source calls `path.resolve` on one absolute argument (it prefixes
`process.cwd()`, which is always absolute) and `path.join` on two segments.
Both are "split on `/`, drop empty and `.` components, process `..`,
re-render" — modelled here at the component level. -/

/-- Split a character list at `'/'` (auxiliary accumulator holds the current
component reversed). -/
def splitSlashAux : List Char → List Char → List (List Char)
  | [], acc => [acc.reverse]
  | ch :: rest, acc =>
    if ch = '/' then acc.reverse :: splitSlashAux rest []
    else splitSlashAux rest (ch :: acc)

/-- The non-empty, non-`"."` components of a path string. -/
def pathComponents (s : String) : List (List Char) :=
  (splitSlashAux s.data []).filter (fun comp => decide (comp ≠ [] ∧ comp ≠ ['.']))

/-- The `".."` component. -/
def dotdot : List Char := ['.', '.']

/-- One step of `..`-processing.  For an absolute path a `..` at the root is
dropped (Node semantics); for a relative path leading `..`s are kept. -/
def normStep (isAbs : Bool) (acc : List (List Char)) (comp : List Char) : List (List Char) :=
  if comp = dotdot then
    if isAbs then acc.dropLast
    else if acc = [] ∨ acc.getLast? = some dotdot then acc ++ [comp]
    else acc.dropLast
  else acc ++ [comp]

/-- Process all `..` components. -/
def normComponents (isAbs : Bool) (cs : List (List Char)) : List (List Char) :=
  cs.foldl (normStep isAbs) []

/-- Join components back with `'/'`. -/
def intercalateSlashL : List (List Char) → List Char
  | [] => []
  | [c] => c
  | c :: rest => c ++ '/' :: intercalateSlashL rest

/-- Render normalized components as a path string (Node renders the empty
relative path as `"."`). -/
def renderPath (isAbs : Bool) (cs : List (List Char)) : String :=
  if isAbs then String.mk ('/' :: intercalateSlashL cs)
  else if cs = [] then "." else String.mk (intercalateSlashL cs)

/-- Model of Node `path.join(a, b)`. -/
def pathJoin (a b : String) : String :=
  renderPath (decide (startsWithSlash a))
    (normComponents (decide (startsWithSlash a)) (pathComponents a ++ pathComponents b))

/-- Model of Node `path.resolve(p)` for an absolute argument `p` (the only way
the source calls it: the argument starts with `process.cwd()`). -/
def resolveAbs (p : String) : String :=
  renderPath true (normComponents true (pathComponents p))

/-! ## The configuration data model (src/index.ts lines 20-94) -/

/-- The shape of the user's `transformOnServe` callback
`(code: string, url: DevServerUrl) => string`. -/
abbrev TransformFn := String → String → String

/-- Options object of the external `vite-plugin-full-reload` package.  The
source never inspects it — it is carried opaquely — so it is modelled as a
payload-free type. -/
inductive FullReloadConfig
  | mk
  deriving DecidableEq, Repr

/-- Model of `interface RefreshConfig \x7b paths: string[]; config?: FullReloadConfig \x7d`. -/
structure RefreshConfig where
  paths : List String
  config : Option FullReloadConfig
  deriving DecidableEq, Repr

/-- An element of a `refresh` array: a string or a `RefreshConfig` object. -/
inductive RefreshItem
  | str (s : String)
  | cfg (c : RefreshConfig)
  deriving DecidableEq, Repr

/-- The union type of the `refresh` option:
`boolean | string | string[] | RefreshConfig | RefreshConfig[]`
(a `string[]` is a `list` whose items are all `.str`). -/
inductive RefreshVal
  | bool (b : Bool)
  | str (s : String)
  | cfg (c : RefreshConfig)
  | list (items : List RefreshItem)
  deriving DecidableEq, Repr

/-- The union `string | string[]` (the type of `input` and `ssr`). -/
inductive InputVal
  | str (s : String)
  | list (ss : List String)
  deriving DecidableEq, Repr

/-- The user-supplied `PluginConfig` object.  Every field the source treats as
possibly `undefined` is an `Option`. -/
structure UserPluginConfig where
  «namespace» : Option String := none
  input : Option InputVal := none
  publicDirectory : Option String := none
  emptyOutDir : Option Bool := none
  buildDirectory : Option String := none
  hotFile : Option String := none
  ssr : Option InputVal := none
  ssrExternal : Option Bool := none
  ssrOutputDirectory : Option String := none
  refresh : Option RefreshVal := none
  transformOnServe : Option TransformFn := none

/-- The JavaScript value passed to `resolvePluginConfig`: it may be
`undefined`, a non-object primitive, an array, or a plain object. -/
inductive ConfigValue
  | undef
  | notObject
  | arr
  | obj (c : UserPluginConfig)

/-- The type `Required<PluginConfig>`: the fully resolved configuration. -/
structure ResolvedPluginConfig where
  «namespace» : String
  input : InputVal
  publicDirectory : String
  emptyOutDir : Bool
  buildDirectory : String
  ssr : InputVal
  ssrOutputDirectory : String
  ssrExternal : Bool
  refresh : RefreshVal
  hotFile : String
  transformOnServe : TransformFn

/-- Embedding of `export const refreshPaths = ["resources/views/**"]` (src/index.ts line 98). -/
def refreshPaths : List String := ["resources/views/**"]

/-! ## resolvePluginConfig (src/index.ts lines 362-445)

The source mutates its argument in place (`config.publicDirectory = ...` etc.)
before building the returned object, so the embedding passes the config state
explicitly: the result is the pair (final state of the argument, thrown error
or returned object). -/

def errMissingConfig : String := "wordpress-vite-plugin: missing configuration."
def errNotObject : String := "wordpress-vite-plugin: configuration must be an object."
def errNamespaceMissing : String := "wordpress-vite-plugin: missing configuration for \"namespace\""
def errInputMissing : String := "wordpress-vite-plugin: missing configuration for \"input\"."
def errPublicEmpty : String :=
  "wordpress-vite-plugin: publicDirectory must be a subdirectory. E.g. 'public'."
def errBuildEmpty : String :=
  "wordpress-vite-plugin: buildDirectory must be a subdirectory. E.g. 'build'."

/-- Line 385-387: `if (config.ssr === "undefined") config.ssr = config.input;`
— note the source compares `ssr` against the literal string `"undefined"`
(not `typeof`), so this fires only when `ssr` is that exact string. -/
def applySsrDefault (inp : InputVal) (c : UserPluginConfig) : UserPluginConfig :=
  if c.ssr = some (.str "undefined") then { c with ssr := some inp } else c

/-- Lines 389-392: trim a string-typed `publicDirectory` in place. -/
def applyPublicTrim (c : UserPluginConfig) : UserPluginConfig :=
  { c with publicDirectory := c.publicDirectory.map trimPublic }

/-- Lines 401-405: trim a string-typed `buildDirectory` in place. -/
def applyBuildTrim (c : UserPluginConfig) : UserPluginConfig :=
  { c with buildDirectory := c.buildDirectory.map trimDir }

/-- Lines 414-418: trim a string-typed `ssrOutputDirectory` in place
(no emptiness check follows for this one). -/
def applySsrOutTrim (c : UserPluginConfig) : UserPluginConfig :=
  { c with ssrOutputDirectory := c.ssrOutputDirectory.map trimDir }

/-- Lines 421-423: `if (config.refresh === true) config.refresh = [{paths: refreshPaths}];`. -/
def applyRefreshDefault (c : UserPluginConfig) : UserPluginConfig :=
  if c.refresh = some (.bool true) then
    { c with refresh := some (.list [.cfg ⟨refreshPaths, none⟩]) }
  else c

/-- State of the argument after the mutations up to and including the
`publicDirectory` trim (the state in which the `publicDirectory` emptiness
check runs). -/
def mutatedPre (inp : InputVal) (c : UserPluginConfig) : UserPluginConfig :=
  applyPublicTrim (applySsrDefault inp c)

/-- State after the `buildDirectory` trim. -/
def mutatedMid (inp : InputVal) (c : UserPluginConfig) : UserPluginConfig :=
  applyBuildTrim (mutatedPre inp c)

/-- Final state of the argument when no error is thrown. -/
def mutatedFinal (inp : InputVal) (c : UserPluginConfig) : UserPluginConfig :=
  applyRefreshDefault (applySsrOutTrim (mutatedMid inp c))

/-- Lines 425-427: the default `publicDirectory`
`resolve(process.cwd() + "/../../uploads/scw-vite-hmr/" + namespace)` —
an absolute path. -/
def defaultPublicDirectory (cwd ns : String) : String :=
  resolveAbs (cwd ++ "/../../uploads/scw-vite-hmr/" ++ ns)

/-- Lines 429-444: the returned object, built from the (already mutated)
config state. -/
def resolvedOf (cwd ns : String) (inp : InputVal) (c : UserPluginConfig) :
    ResolvedPluginConfig :=
  let publicDirectory := c.publicDirectory.getD (defaultPublicDirectory cwd ns)
  { «namespace» := ns
    input := inp
    publicDirectory := publicDirectory
    emptyOutDir := c.emptyOutDir.getD true
    buildDirectory := c.buildDirectory.getD "build"
    ssr := c.ssr.getD inp
    ssrOutputDirectory := c.ssrOutputDirectory.getD (pathJoin publicDirectory "ssr")
    ssrExternal := c.ssrExternal.getD false
    refresh := c.refresh.getD (.bool false)
    hotFile := c.hotFile.getD (pathJoin publicDirectory "hot")
    transformOnServe := c.transformOnServe.getD (fun code _url => code) }

/-- Embedding of `resolvePluginConfig` (src/index.ts lines 362-445).  `cwd` stands for
`process.cwd()` (always an absolute path at runtime).  Returns the final state
of the (mutated) argument together with the thrown error or returned object. -/
def resolvePluginConfig (cwd : String) (v : ConfigValue) :
    ConfigValue × Except String ResolvedPluginConfig :=
  match v with
  | .undef => (.undef, .error errMissingConfig)
  | .notObject => (.notObject, .error errNotObject)
  | .arr => (.arr, .error errNotObject)
  | .obj c =>
    match c.«namespace», c.input with
    | none, _ => (.obj c, .error errNamespaceMissing)
    | some _, none => (.obj c, .error errInputMissing)
    | some ns, some inp =>
      if (mutatedPre inp c).publicDirectory = some "" then
        (.obj (mutatedPre inp c), .error errPublicEmpty)
      else if (mutatedMid inp c).buildDirectory = some "" then
        (.obj (mutatedMid inp c), .error errBuildEmpty)
      else
        (.obj (mutatedFinal inp c), .ok (resolvedOf cwd ns inp (mutatedFinal inp c)))

/-! ## resolveFullReloadConfig (src/index.ts lines 475-503)

`resolveFullReloadConfig` turns the resolved `refresh` value into a list of
`vite-plugin-full-reload` plugin instances; each instance carries its
`RefreshConfig` in `__wordpress_plugin_config`.  The embedding returns that
list of `RefreshConfig`s (the plugin object itself belongs to the external
package).  The source's final branch casts a string-containing array to
`RefreshConfig[]` via `[{paths: config}]`; for an all-string array (the only
shape the TS types admit there) `paths` is exactly that string list, modelled
by extracting the string items. -/

def resolveFullReloadConfigs (refresh : RefreshVal) : List RefreshConfig :=
  match refresh with
  | .bool _ => []
  | .str s => [⟨[s], none⟩]
  | .cfg c => [c]
  | .list items =>
    if items.any (fun i => match i with | .str _ => true | .cfg _ => false) then
      [⟨items.filterMap (fun i => match i with | .str s => some s | .cfg _ => none), none⟩]
    else
      items.filterMap (fun i => match i with | .str _ => none | .cfg c => some c)

/-- The reload triggers produced for a user config: the composition of
`resolvePluginConfig` and `resolveFullReloadConfig` as performed by the
`wordpress` entry function (src/index.ts lines 105-124). -/
def refreshTriggers (cwd : String) (v : ConfigValue) : Except String (List RefreshConfig) :=
  Except.map (fun r => resolveFullReloadConfigs r.refresh) (resolvePluginConfig cwd v).snd

/-! ## ensureCommandShouldRunInEnvironment (src/index.ts lines 313-326) -/

/-- The Vite command: `"build" | "serve"`. -/
inductive Command
  | build
  | serve
  deriving DecidableEq, Repr

/-- An environment-variable mapping (`Record<string, string>`): a key absent
from the list is `undefined`. -/
abbrev Env := List (String × String)

/-- Lookup of `env.KEY` — `none` models `undefined`. -/
def envLookup (env : Env) (key : String) : Option String :=
  (env.find? (fun kv => kv.fst == key)).map (fun kv => kv.snd)

def errCiEnvironment : String :=
  "You should not run the Vite HMR server in CI environments. You should build your assets for production instead. To disable this ENV check you may set WORDPRESS_BYPASS_ENV_CHECK=1"

/-- Embedding of `ensureCommandShouldRunInEnvironment` (lines 313-326): returns normally or
throws. -/
def ensureCommandShouldRunInEnvironment (command : Command) (env : Env) :
    Except String Unit :=
  if command = .build ∨ envLookup env "WORDPRESS_BYPASS_ENV_CHECK" = some "1" then
    .ok ()
  else if (envLookup env "CI").isSome then
    .error errCiEnvironment
  else
    .ok ()

/-! ## resolveEnvironmentServerConfig (src/index.ts lines 583-630) -/

/-- The filesystem: `none` means the path does not exist, `some c` a file with
contents `c`. -/
abbrev FsState := String → Option String

/-- Model of `fs.existsSync` applied to a possibly-`undefined` path
(`existsSync(undefined)` returns `false`, it never throws). -/
def existsSyncOpt (fs : FsState) (path : Option String) : Bool :=
  match path with
  | none => false
  | some p => (fs p).isSome

/-- Model of `fs.readFileSync` on a possibly-`undefined` path; the source only
reaches it after `existsSync` succeeded, so the `""` fallbacks are
unreachable there. -/
def readFileOpt (fs : FsState) (path : Option String) : String :=
  match path with
  | none => ""
  | some p => (fs p).getD ""

/-- JS truthiness of `env.KEY` (a string variable): defined and non-empty. -/
def truthyEnv (v : Option String) : Bool :=
  match v with
  | none => false
  | some s => s ≠ ""

/-- The value returned by `resolveEnvironmentServerConfig` on success:
`{hmr: {host}, host, https: {key, cert}}`. -/
structure EnvServerConfig where
  hmrHost : String
  host : String
  httpsKey : String
  httpsCert : String
  deriving DecidableEq, Repr

/-- Embedding of `resolveHostFromEnv` (lines 624-630): `new URL(env.APP_URL).host`, with
parse failures (including `APP_URL` being `undefined`, which stringifies to
the invalid URL `"undefined"`) mapped to `undefined`.  URL parsing itself is
performed by the platform's WHATWG `URL` class, which is outside this
repository; it is abstracted as the function argument `parseHost`. -/
def resolveHostFromEnv (parseHost : String → Option String) (env : Env) : Option String :=
  (envLookup env "APP_URL").bind parseHost

def errCertificateFiles : String :=
  "Unable to find the certificate files specified in your environment."

def errHostFromAppUrl : String :=
  "Unable to determine the host from the environment's APP_URL."

/-- Embedding of `resolveEnvironmentServerConfig` (lines 583-619).  Returns `ok none` for
"no override", `ok (some _)` for an override, `error` for a thrown error. -/
def resolveEnvironmentServerConfig (parseHost : String → Option String)
    (fs : FsState) (env : Env) : Except String (Option EnvServerConfig) :=
  let key := envLookup env "VITE_DEV_SERVER_KEY"
  let cert := envLookup env "VITE_DEV_SERVER_CERT"
  if ¬ truthyEnv key ∧ ¬ truthyEnv cert then
    .ok none
  else if ¬ existsSyncOpt fs key ∨ ¬ existsSyncOpt fs cert then
    .error errCertificateFiles
  else
    match resolveHostFromEnv parseHost env with
    | none => .error errHostFromAppUrl
    | some host =>
      if host = "" then .error errHostFromAppUrl
      else .ok (some ⟨host, host, readFileOpt fs key, readFileOpt fs cert⟩)

/-! ## resolveDevServerUrl (src/index.ts lines 508-551) -/

/-- Vite's resolved `server.hmr` value: a boolean, an options object, or
absent.  (`typeof hmr === "object"` is true exactly for `.obj`.) -/
structure HmrObj where
  protocol : Option String := none
  host : Option String := none
  clientPort : Option Nat := none
  deriving DecidableEq, Repr

inductive HmrVal
  | bool (b : Bool)
  | obj (o : HmrObj)
  | undef
  deriving DecidableEq, Repr

/-- Vite's resolved `server.host`: a string, a boolean, or absent
(`typeof host === "string"` is true exactly for `.str`). -/
inductive HostVal
  | str (s : String)
  | bool (b : Bool)
  | undef
  deriving DecidableEq, Repr

/-- The slice of Vite's `ResolvedConfig.server` that `resolveDevServerUrl`
reads.  `https` is `true` iff `config.server.https` is set (an options object,
always truthy in JS). -/
structure ViteServerConfig where
  hmr : HmrVal := .undef
  https : Bool := false
  host : HostVal := .undef
  deriving DecidableEq, Repr

/-- The `AddressInfo.family` tag: a string in current Node, a number in node
>=18.0 <18.4 (src/index.ts lines 542-551). -/
inductive AddressFamily
  | str (s : String)
  | num (n : Int)
  deriving DecidableEq, Repr

/-- Model of `net.AddressInfo`. -/
structure AddressInfo where
  address : String
  family : AddressFamily
  port : Nat
  deriving DecidableEq, Repr

/-- Embedding of `isIpv6` (lines 542-551): `family === "IPv6" || family === 6`. -/
def isIpv6 (a : AddressInfo) : Bool :=
  decide (a.family = .str "IPv6" ∨ a.family = .num 6)

/-- Embedding of `resolveDevServerUrl` (lines 508-540).  JS truthiness: the ternary
`configHmrProtocol ? ... : null` treats the empty string as falsy, hence the
explicit `p = ""` case. -/
def resolveDevServerUrl (address : AddressInfo) (config : ViteServerConfig) : String :=
  let configHmrProtocol : Option String :=
    match config.hmr with
    | .obj o => o.protocol
    | _ => none
  let clientProtocol : Option String :=
    match configHmrProtocol with
    | some p => if p = "" then none else if p = "wss" then some "https" else some "http"
    | none => none
  let serverProtocol : String := if config.https then "https" else "http"
  let protocol := clientProtocol.getD serverProtocol
  let configHmrHost : Option String :=
    match config.hmr with
    | .obj o => o.host
    | _ => none
  let configHost : Option String :=
    match config.host with
    | .str s => some s
    | _ => none
  let serverAddress : String :=
    if isIpv6 address then "[" ++ address.address ++ "]" else address.address
  let host := configHmrHost.getD (configHost.getD serverAddress)
  let configHmrClientPort : Option Nat :=
    match config.hmr with
    | .obj o => o.clientPort
    | _ => none
  let port : Nat := configHmrClientPort.getD address.port
  protocol ++ "://" ++ host ++ ":" ++ toString port

/-! ## The hot-file lifecycle (src/index.ts lines 241-287) -/

/-- Model of `fs.writeFileSync(hotFile, url)`: create or overwrite. -/
def writeHotFile (hotFile url : String) (fs : FsState) : FsState :=
  fun p => if p = hotFile then some url else fs p

/-- The `clean` exit handler (lines 275-279):
`if (fs.existsSync(hotFile)) fs.rmSync(hotFile)` — a guarded delete, a no-op
when the file is absent. -/
def cleanHotFile (hotFile : String) (fs : FsState) : FsState :=
  if (fs hotFile).isSome then (fun p => if p = hotFile then none else fs p) else fs

/-- Lifecycle phases of the hot-file manager. -/
inductive HotPhase
  | idle
  | listening (url : String)
  | terminated
  deriving Repr

/-- Dev-server process state: lifecycle phase plus filesystem. -/
structure HotState where
  phase : HotPhase
  fs : FsState

/-- The two external events: the HTTP server's one-shot `listening` event
(carrying the resolved dev-server URL) and process termination (`exit`,
`SIGINT`, `SIGTERM`, `SIGHUP` all funnel into `process.exit`, whose `exit`
event runs `clean`). -/
inductive HotEvent
  | listen (url : String)
  | term

/-- One transition of the hot-file state machine (`configureServer`,
lines 241-287): `listening` writes the URL to the hot file (once, from idle);
termination deletes the hot file if it exists. -/
def hotStep (hotFile : String) : HotState → HotEvent → HotState
  | ⟨.idle, fs⟩, .listen url => ⟨.listening url, writeHotFile hotFile url fs⟩
  | ⟨.listening u, fs⟩, .listen _ => ⟨.listening u, fs⟩
  | ⟨.terminated, fs⟩, .listen _ => ⟨.terminated, fs⟩
  | ⟨_, fs⟩, .term => ⟨.terminated, cleanHotFile hotFile fs⟩

/-! ## Claim-side definitions (refinement comparisons)

The following definitions follow the words of the specification/claims, not
the source; they exist to be compared against the source-derived definitions
above. -/

/-- The HMR protocol override, as the claims describe it: present iff
`server.hmr` is an options object carrying a `protocol`. -/
def hmrProtocolOf (config : ViteServerConfig) : Option String :=
  match config.hmr with
  | .obj o => o.protocol
  | _ => none

/-- The HMR host override. -/
def hmrHostOf (config : ViteServerConfig) : Option String :=
  match config.hmr with
  | .obj o => o.host
  | _ => none

/-- The HMR client-port override. -/
def hmrClientPortOf (config : ViteServerConfig) : Option Nat :=
  match config.hmr with
  | .obj o => o.clientPort
  | _ => none

/-- The string-typed bind-host override. -/
def bindHostOf (config : ViteServerConfig) : Option String :=
  match config.host with
  | .str s => some s
  | _ => none

/-- The listening address's host, bracketed when the family is the string
`"IPv6"` or the legacy numeric value `6`. -/
def bracketedAddress (address : AddressInfo) : String :=
  if isIpv6 address then "[" ++ address.address ++ "]" else address.address

/-- Claim C1's scheme, exactly as worded: "https iff the HMR protocol override
is `wss` (http for any other set protocol), else https iff the TLS flag is
set, else http". -/
def claimScheme (config : ViteServerConfig) : String :=
  match hmrProtocolOf config with
  | some p => if p = "wss" then "https" else "http"
  | none => if config.https then "https" else "http"

/-- Claim C1's host resolution (identical to the source's behaviour). -/
def claimHost (address : AddressInfo) (config : ViteServerConfig) : String :=
  (hmrHostOf config).getD ((bindHostOf config).getD (bracketedAddress address))

/-- Claim C1's port resolution (identical to the source's behaviour). -/
def claimPort (address : AddressInfo) (config : ViteServerConfig) : Nat :=
  (hmrClientPortOf config).getD address.port

/-- The URL claim C1 prescribes. -/
def claimDevServerUrl (address : AddressInfo) (config : ViteServerConfig) : String :=
  claimScheme config ++ "://" ++ claimHost address config ++ ":"
    ++ toString (claimPort address config)

/-- The amended scheme: like `claimScheme`, but (matching JS string
truthiness in the source) an empty-string protocol override counts as unset
and falls through to the TLS flag. -/
def amendedScheme (config : ViteServerConfig) : String :=
  match hmrProtocolOf config with
  | some p =>
    if p = "" then (if config.https then "https" else "http")
    else if p = "wss" then "https" else "http"
  | none => if config.https then "https" else "http"

/-- The URL the amended claim C1 prescribes. -/
def amendedDevServerUrl (address : AddressInfo) (config : ViteServerConfig) : String :=
  amendedScheme config ++ "://" ++ claimHost address config ++ ":"
    ++ toString (claimPort address config)

/-- Re-feed a resolved configuration to `resolvePluginConfig` (every field
present), as claim C5's idempotence property requires. -/
def toUserConfig (r : ResolvedPluginConfig) : UserPluginConfig :=
  { «namespace» := some r.«namespace»
    input := some r.input
    publicDirectory := some r.publicDirectory
    emptyOutDir := some r.emptyOutDir
    buildDirectory := some r.buildDirectory
    hotFile := some r.hotFile
    ssr := some r.ssr
    ssrExternal := some r.ssrExternal
    ssrOutputDirectory := some r.ssrOutputDirectory
    refresh := some r.refresh
    transformOnServe := some r.transformOnServe }

/-! ## Concrete fixtures used by counterexamples and witnesses -/

/-- A minimal valid user config: required fields only. -/
def minimalInput : UserPluginConfig :=
  { «namespace» := some "ns", input := some (.str "app.js") }

/-- A valid user config whose `publicDirectory` is `"/foo/"`. -/
def slashFooInput : UserPluginConfig :=
  { «namespace» := some "ns", input := some (.str "app.js"),
    publicDirectory := some "/foo/" }

/-- A valid user config whose `publicDirectory` is the blank string `" "`. -/
def blankPublicInput : UserPluginConfig :=
  { «namespace» := some "ns", input := some (.str "app.js"),
    publicDirectory := some " " }

/-- A fully user-supplied, already-normalized resolved config (used to witness
the amended idempotence theorem). -/
def normalResolved : ResolvedPluginConfig :=
  { «namespace» := "ns"
    input := .str "app.js"
    publicDirectory := "public"
    emptyOutDir := true
    buildDirectory := "build"
    ssr := .str "ssr.js"
    ssrOutputDirectory := "public/ssr"
    ssrExternal := false
    refresh := .bool false
    hotFile := "public/hot"
    transformOnServe := fun code _url => code }

/-- A user config exercising the slash invariants: user-supplied
`publicDirectory` and `ssrOutputDirectory`, defaulted `buildDirectory` and
`hotFile`. -/
def slashWitnessInput : UserPluginConfig :=
  { «namespace» := some "ns", input := some (.str "app.js"),
    publicDirectory := some "public/", ssrOutputDirectory := some "/out/" }

/-- A user config whose `refresh` is `true`. -/
def refreshTrueInput : UserPluginConfig :=
  { «namespace» := some "ns", input := some (.str "app.js"),
    refresh := some (.bool true) }

/-- Environment fixture for the environment-server-config witness. -/
def tlsEnv : Env :=
  [("VITE_DEV_SERVER_KEY", "key.pem"), ("VITE_DEV_SERVER_CERT", "cert.pem"),
   ("APP_URL", "https://example.test")]

/-- Filesystem fixture containing the two certificate files. -/
def tlsFs : FsState :=
  fun p => if p = "key.pem" then some "KEYDATA"
           else if p = "cert.pem" then some "CERTDATA" else none

/-- URL-host parser fixture. -/
def tlsParseHost : String → Option String :=
  fun u => if u = "https://example.test" then some "example.test" else none

/-! ## Supporting lemmas -/

lemma head?_dropWhile_ne_slash (l : List Char) :
    (l.dropWhile (fun ch => ch = '/')).head? ≠ some '/' := by
  intro h
  have h2 := List.head?_dropWhile_not (fun ch => ch = '/') l
  rw [h] at h2
  simp at h2

lemma dropLeadingSlashesL_head (l : List Char) :
    (dropLeadingSlashesL l).head? ≠ some '/' :=
  head?_dropWhile_ne_slash l

lemma dropTrailingSlashesL_le (l : List Char) : dropTrailingSlashesL l <+: l := by
  unfold dropTrailingSlashesL
  apply List.reverse_suffix.mp
  rw [List.reverse_reverse]
  exact List.dropWhile_suffix _

lemma head?_of_le {α : Type} {l₁ l₂ : List α} (h : l₁ <+: l₂) :
    l₁.head? = none ∨ l₁.head? = l₂.head? := by
  obtain ⟨t, rfl⟩ := h
  cases l₁ with
  | nil => exact Or.inl rfl
  | cons a l => exact Or.inr rfl

lemma dropTrailingSlashesL_getLast (l : List Char) :
    (dropTrailingSlashesL l).getLast? ≠ some '/' := by
  unfold dropTrailingSlashesL
  rw [← List.head?_reverse, List.reverse_reverse]
  exact head?_dropWhile_ne_slash _

lemma trimPublic_head (s : String) : ¬ startsWithSlash (trimPublic s) :=
  dropLeadingSlashesL_head _

lemma trimDir_head (s : String) : ¬ startsWithSlash (trimDir s) := by
  show (dropTrailingSlashesL (dropLeadingSlashesL (jsTrimL s.data))).head? ≠ some '/'
  rcases head?_of_le (dropTrailingSlashesL_le (dropLeadingSlashesL (jsTrimL s.data))) with h | h
  · rw [h]; simp
  · rw [h]; exact dropLeadingSlashesL_head _

lemma trimDir_last (s : String) : ¬ endsWithSlash (trimDir s) :=
  dropTrailingSlashesL_getLast _

lemma splitSlashAux_no_slash :
    ∀ (l acc : List Char), '/' ∉ acc → ∀ comp ∈ splitSlashAux l acc, '/' ∉ comp := by
  intro l
  induction l with
  | nil =>
    intro acc hacc comp hmem
    simp only [splitSlashAux, List.mem_singleton] at hmem
    subst hmem
    simpa using hacc
  | cons ch rest ih =>
    intro acc hacc comp hmem
    by_cases h : ch = '/'
    · subst h
      simp only [splitSlashAux, if_pos rfl] at hmem
      cases hmem with
      | head => simpa using hacc
      | tail b hmem => exact ih [] (by simp) _ hmem
    · simp only [splitSlashAux, if_neg h] at hmem
      refine ih (ch :: acc) ?_ comp hmem
      intro hc
      rcases List.mem_cons.mp hc with he | he
      · exact h he.symm
      · exact hacc he

lemma pathComponents_no_slash (s : String) :
    ∀ comp ∈ pathComponents s, '/' ∉ comp := by
  intro comp hmem
  have h2 := List.mem_filter.mp hmem
  exact splitSlashAux_no_slash s.data [] (by simp) comp h2.1

lemma pathComponents_ne_nil (s : String) :
    ∀ comp ∈ pathComponents s, comp ≠ [] := by
  intro comp hmem
  have h2 := List.mem_filter.mp hmem
  exact (of_decide_eq_true h2.2).1

lemma mem_normStep {abs : Bool} {acc : List (List Char)} {c comp : List Char}
    (h : comp ∈ normStep abs acc c) : comp ∈ acc ∨ comp = c := by
  unfold normStep at h
  split_ifs at h with h1 h2 h3
  · exact Or.inl (List.dropLast_subset _ h)
  · rcases List.mem_append.mp h with h' | h'
    · exact Or.inl h'
    · exact Or.inr (List.mem_singleton.mp h')
  · exact Or.inl (List.dropLast_subset _ h)
  · rcases List.mem_append.mp h with h' | h'
    · exact Or.inl h'
    · exact Or.inr (List.mem_singleton.mp h')

lemma mem_normComponents {abs : Bool} {cs : List (List Char)} {comp : List Char}
    (h : comp ∈ normComponents abs cs) : comp ∈ cs := by
  suffices H : ∀ (cs acc : List (List Char)),
      comp ∈ cs.foldl (normStep abs) acc → comp ∈ acc ∨ comp ∈ cs by
    rcases H cs [] h with h' | h'
    · simp at h'
    · exact h'
  intro cs
  induction cs with
  | nil => intro acc h'; exact Or.inl h'
  | cons c cs ih =>
    intro acc h'
    rcases ih (normStep abs acc c) h' with h'' | h''
    · rcases mem_normStep h'' with h3 | rfl
      · exact Or.inl h3
      · exact Or.inr (List.mem_cons_self _ _)
    · exact Or.inr (List.mem_cons_of_mem _ h'')

lemma normComponents_snoc (abs : Bool) (cs : List (List Char)) (b : List Char)
    (hb : b ≠ dotdot) :
    normComponents abs (cs ++ [b]) = normComponents abs cs ++ [b] := by
  unfold normComponents
  rw [List.foldl_append]
  simp [normStep, hb]

lemma intercalateSlashL_getLast (cs : List (List Char)) (b : List Char) (hb : b ≠ []) :
    (intercalateSlashL (cs ++ [b])).getLast? = b.getLast? := by
  induction cs with
  | nil => rfl
  | cons c cs ih =>
    have hne : intercalateSlashL (cs ++ [b]) ≠ [] := by
      intro h0
      have h1 := ih
      rw [h0] at h1
      have h2 := List.getLast?_isSome.mpr hb
      rw [← h1] at h2
      simp at h2
    cases hcs : cs ++ [b] with
    | nil => exact absurd hcs (by simp)
    | cons d ds =>
      rw [List.cons_append, hcs]
      show (c ++ '/' :: intercalateSlashL (d :: ds)).getLast? = b.getLast?
      rw [List.getLast?_append_of_ne_nil _ (by simp)]
      show (['/'] ++ intercalateSlashL (d :: ds)).getLast? = b.getLast?
      rw [List.getLast?_append_of_ne_nil _ (by rw [← hcs]; exact hne), ← hcs, ih]

lemma intercalateSlashL_head (c : List Char) (cs : List (List Char)) (hc : c ≠ []) :
    (intercalateSlashL (c :: cs)).head? = c.head? := by
  cases cs with
  | nil => rfl
  | cons d ds =>
    show (c ++ '/' :: intercalateSlashL (d :: ds)).head? = c.head?
    cases c with
    | nil => exact absurd rfl hc
    | cons a as => rfl

lemma renderPath_rel_head (cs : List (List Char))
    (h1 : ∀ comp ∈ cs, comp ≠ []) (h2 : ∀ comp ∈ cs, '/' ∉ comp) :
    ¬ startsWithSlash (renderPath false cs) := by
  unfold renderPath
  cases cs with
  | nil => simp [startsWithSlash]
  | cons c cs' =>
    rw [if_neg (by simp), if_neg (by simp)]
    show (intercalateSlashL (c :: cs')).head? ≠ some '/'
    rw [intercalateSlashL_head c cs' (h1 c (List.mem_cons_self _ _))]
    intro hh
    exact h2 c (List.mem_cons_self _ _) (List.mem_of_mem_head? (by simp [hh]))

lemma renderPath_snoc_last (abs : Bool) (cs : List (List Char)) (b : List Char)
    (hb : b ≠ []) (hlast : b.getLast? ≠ some '/') :
    ¬ endsWithSlash (renderPath abs (cs ++ [b])) := by
  unfold renderPath
  cases abs with
  | true =>
    rw [if_pos rfl]
    show ('/' :: intercalateSlashL (cs ++ [b])).getLast? ≠ some '/'
    have hne : intercalateSlashL (cs ++ [b]) ≠ [] := by
      intro h0
      have h1 := intercalateSlashL_getLast cs b hb
      rw [h0] at h1
      have h2 := List.getLast?_isSome.mpr hb
      rw [← h1] at h2
      simp at h2
    show (['/'] ++ intercalateSlashL (cs ++ [b])).getLast? ≠ some '/'
    rw [List.getLast?_append_of_ne_nil _ hne, intercalateSlashL_getLast cs b hb]
    exact hlast
  | false =>
    rw [if_neg (by simp), if_neg (by simp)]
    show (intercalateSlashL (cs ++ [b])).getLast? ≠ some '/'
    rw [intercalateSlashL_getLast cs b hb]
    exact hlast

lemma pathJoin_single_last (a b : String) (bc : List Char)
    (hcomp : pathComponents b = [bc]) (hdot : bc ≠ dotdot) (hbne : bc ≠ [])
    (hlast : bc.getLast? ≠ some '/') : ¬ endsWithSlash (pathJoin a b) := by
  unfold pathJoin
  rw [hcomp, normComponents_snoc _ _ _ hdot]
  exact renderPath_snoc_last _ _ _ hbne hlast

lemma pathJoin_rel_head (a b : String) (ha : ¬ startsWithSlash a) :
    ¬ startsWithSlash (pathJoin a b) := by
  unfold pathJoin
  rw [decide_eq_false ha]
  apply renderPath_rel_head
  · intro comp hmem
    rcases List.mem_append.mp (mem_normComponents hmem) with h | h
    · exact pathComponents_ne_nil a comp h
    · exact pathComponents_ne_nil b comp h
  · intro comp hmem
    rcases List.mem_append.mp (mem_normComponents hmem) with h | h
    · exact pathComponents_no_slash a comp h
    · exact pathComponents_no_slash b comp h

lemma mutatedPre_pub (inp : InputVal) (c : UserPluginConfig) :
    (mutatedPre inp c).publicDirectory = c.publicDirectory.map trimPublic := by
  unfold mutatedPre applyPublicTrim applySsrDefault
  by_cases h : c.ssr = some (.str "undefined") <;> simp [h]

lemma mutatedMid_build (inp : InputVal) (c : UserPluginConfig) :
    (mutatedMid inp c).buildDirectory = c.buildDirectory.map trimDir := by
  unfold mutatedMid applyBuildTrim mutatedPre applyPublicTrim applySsrDefault
  by_cases h : c.ssr = some (.str "undefined") <;> simp [h]

lemma mutatedFinal_eq (inp : InputVal) (c : UserPluginConfig) :
    mutatedFinal inp c =
      { c with
        ssr := if c.ssr = some (.str "undefined") then some inp else c.ssr
        publicDirectory := c.publicDirectory.map trimPublic
        buildDirectory := c.buildDirectory.map trimDir
        ssrOutputDirectory := c.ssrOutputDirectory.map trimDir
        refresh := if c.refresh = some (.bool true)
                   then some (.list [.cfg ⟨refreshPaths, none⟩]) else c.refresh } := by
  unfold mutatedFinal applyRefreshDefault applySsrOutTrim mutatedMid applyBuildTrim
    mutatedPre applyPublicTrim applySsrDefault
  by_cases h1 : c.ssr = some (.str "undefined") <;>
    by_cases h2 : c.refresh = some (.bool true) <;>
    simp [h1, h2]

lemma resolve_obj_ok (cwd : String) (c : UserPluginConfig) (ns : String) (inp : InputVal)
    (hns : c.«namespace» = some ns) (hinp : c.input = some inp)
    (hpub : (mutatedPre inp c).publicDirectory ≠ some "")
    (hbuild : (mutatedMid inp c).buildDirectory ≠ some "") :
    resolvePluginConfig cwd (.obj c) =
      (.obj (mutatedFinal inp c), .ok (resolvedOf cwd ns inp (mutatedFinal inp c))) := by
  simp only [resolvePluginConfig, hns, hinp]
  rw [if_neg hpub, if_neg hbuild]

lemma resolve_obj_ok_inv (cwd : String) (c : UserPluginConfig) (r : ResolvedPluginConfig)
    (h : (resolvePluginConfig cwd (.obj c)).snd = .ok r) :
    ∃ ns inp, c.«namespace» = some ns ∧ c.input = some inp ∧
      (mutatedPre inp c).publicDirectory ≠ some "" ∧
      (mutatedMid inp c).buildDirectory ≠ some "" ∧
      r = resolvedOf cwd ns inp (mutatedFinal inp c) := by
  cases hns : c.«namespace» with
  | none => simp [resolvePluginConfig, hns] at h
  | some ns =>
    cases hinp : c.input with
    | none => simp [resolvePluginConfig, hns, hinp] at h
    | some inp =>
      simp only [resolvePluginConfig, hns, hinp] at h
      by_cases hp : (mutatedPre inp c).publicDirectory = some ""
      · rw [if_pos hp] at h; simp at h
      · rw [if_neg hp] at h
        by_cases hb : (mutatedMid inp c).buildDirectory = some ""
        · rw [if_pos hb] at h; simp at h
        · rw [if_neg hb] at h
          simp only [] at h
          exact ⟨ns, inp, rfl, rfl, hp, hb, (Except.ok.inj h).symm⟩

/-! ## Claim theorems -/

/-- C6: `ensureCommandShouldRunInEnvironment` returns without error when
the command is `build` or `WORDPRESS_BYPASS_ENV_CHECK` equals the exact string
`"1"`; otherwise it throws exactly when `CI` is defined in the environment,
with any value including the empty string.  In particular, `serve` with
`{CI: ""}` and no bypass fails, and the same environment with the bypass set
to `"1"` succeeds. -/
theorem c6_environment_gate (command : Command) (env : Env) :
    (ensureCommandShouldRunInEnvironment command env = .error errCiEnvironment ↔
      (command ≠ .build ∧ envLookup env "WORDPRESS_BYPASS_ENV_CHECK" ≠ some "1" ∧
        (envLookup env "CI").isSome)) ∧
    ensureCommandShouldRunInEnvironment .serve [("CI", "")] = .error errCiEnvironment ∧
    ensureCommandShouldRunInEnvironment .serve
      [("WORDPRESS_BYPASS_ENV_CHECK", "1"), ("CI", "")] = .ok () := by
  refine ⟨?_, rfl, rfl⟩
  unfold ensureCommandShouldRunInEnvironment
  split_ifs with h1 h2
  · constructor
    · intro hh; exact hh.elim
    · rintro ⟨hc, hb, _⟩
      rcases h1 with h1 | h1
      · exact absurd h1 hc
      · exact absurd h1 hb
  · constructor
    · intro _
      push_neg at h1
      exact ⟨h1.1, h1.2, h2⟩
    · intro _; rfl
  · constructor
    · intro hh; exact hh.elim
    · rintro ⟨_, _, hci⟩
      exact absurd hci h2

/-- C6 witness: A concrete instantiation of the environment-gate
characterization: `serve` in an environment defining `CI` (without bypass)
throws. -/
theorem c6_witness :
    ensureCommandShouldRunInEnvironment .serve [("CI", "x")] = .error errCiEnvironment :=
  (c6_environment_gate .serve [("CI", "x")]).1.mpr ⟨by decide, by decide, by decide⟩

/-- C9: Hot-file lifecycle: after the `listening` event fires with
resolved URL `U`, the hot file contains exactly `U` (overwriting any previous
content — the prior filesystem is arbitrary); after process exit or a
termination signal, the hot file no longer exists; and the deletion is a
no-op (never an error) when the file is already absent. -/
theorem c9_hot_file_lifecycle (hotFile url : String) (fs fs0 : FsState)
    (habsent : fs0 hotFile = none) :
    ((hotStep hotFile ⟨.idle, fs⟩ (.listen url)).fs hotFile = some url) ∧
    (∀ ph, (hotStep hotFile ⟨ph, fs⟩ .term).fs hotFile = none) ∧
    cleanHotFile hotFile fs0 = fs0 := by
  have hclean : ∀ g : FsState, cleanHotFile hotFile g hotFile = none := by
    intro g
    unfold cleanHotFile
    split_ifs with h
    · simp
    · exact Option.not_isSome_iff_eq_none.mp h
  refine ⟨?_, ?_, ?_⟩
  · simp [hotStep, writeHotFile]
  · intro ph
    cases ph <;> exact hclean fs
  · unfold cleanHotFile
    rw [habsent]
    simp

/-- C9 witness: The lifecycle at a concrete hot file, URL and (empty)
filesystem. -/
theorem c9_witness :
    ((hotStep "public/hot" ⟨.idle, fun _ => none⟩ (.listen "http://localhost:5173")).fs
        "public/hot" = some "http://localhost:5173") ∧
    ((hotStep "public/hot" ⟨.listening "http://localhost:5173", fun _ => none⟩ .term).fs
        "public/hot" = none) ∧
    cleanHotFile "public/hot" (fun _ => none) = (fun _ => none) := by
  obtain ⟨h1, h2, h3⟩ :=
    c9_hot_file_lifecycle "public/hot" "http://localhost:5173"
      (fun _ => none) (fun _ => none) rfl
  exact ⟨h1, h2 _, h3⟩

/-- C4 counterexample: `publicDirectory: "/foo/"` resolves to `"foo/"`,
not `"foo"`: the source strips only the leading slashes of `publicDirectory`
(src/index.ts lines 389-392), so the claimed value `"foo"` is wrong. -/
theorem c4_counterexample :
    Except.map (fun r => r.publicDirectory)
      (resolvePluginConfig "/srv/www/app" (.obj slashFooInput)).snd = .ok "foo/" ∧
    ("foo/" : String) ≠ "foo" :=
  ⟨rfl, by decide⟩

/-- C4 (amended): For the user configuration with `publicDirectory`
`"/foo/"` (and valid namespace and input), `resolvePluginConfig` returns a
config whose `publicDirectory` equals `"foo/"`: the leading slash is removed
but the trailing slash is kept. -/
theorem c4_public_directory_trim (cwd : String) :
    Except.map (fun r => r.publicDirectory)
      (resolvePluginConfig cwd (.obj slashFooInput)).snd = .ok "foo/" := by
  rw [resolve_obj_ok cwd slashFooInput "ns" (.str "app.js") rfl rfl
    (by decide) (by decide)]
  rfl

/-- C1 counterexample: With an empty-string HMR protocol override and the
TLS flag set, the source yields scheme `https` (the empty string is falsy in
JS, so the override falls through to the TLS flag), while the claim's literal
resolution — `http` for any set protocol other than `wss` — yields `http`. -/
theorem c1_counterexample :
    resolveDevServerUrl ⟨"::1", .str "IPv6", 5173⟩
      { hmr := .obj { protocol := some "" }, https := true } = "https://[::1]:5173" ∧
    claimDevServerUrl ⟨"::1", .str "IPv6", 5173⟩
      { hmr := .obj { protocol := some "" }, https := true } = "http://[::1]:5173" :=
  ⟨rfl, rfl⟩

/-- C1 (amended): `resolveDevServerUrl` returns `scheme://host:port` with
each field resolved by the independent three-way precedence of the claim,
amended in one point: an HMR protocol override equal to the empty string is
treated as unset (JS truthiness) and falls through to the TLS flag.  Host is
the HMR host override, else the string-typed bind host, else the address
host, bracketed for family `"IPv6"` or legacy numeric `6`; port is the HMR
client-port override, else the socket port.  In particular
`{host: "::1", family: "IPv6", port: 5173}` with no overrides and TLS off
yields `"http://[::1]:5173"`. -/
theorem c1_dev_server_url (address : AddressInfo) (config : ViteServerConfig) :
    resolveDevServerUrl address config = amendedDevServerUrl address config ∧
    resolveDevServerUrl ⟨"::1", .str "IPv6", 5173⟩ {} = "http://[::1]:5173" := by
  refine ⟨?_, rfl⟩
  obtain ⟨hmr, https, host⟩ := config
  unfold resolveDevServerUrl amendedDevServerUrl amendedScheme claimHost claimPort
    hmrProtocolOf hmrHostOf hmrClientPortOf bindHostOf bracketedAddress
  cases hmr with
  | bool b => rfl
  | undef => rfl
  | obj o =>
    obtain ⟨prot, hmrHost, clientPort⟩ := o
    cases prot with
    | none => rfl
    | some p =>
      by_cases h1 : p = ""
      · simp [h1]
      · by_cases h2 : p = "wss" <;> simp [h1, h2]

/-- C2 counterexample: A `publicDirectory` consisting of a single space
triggers the configuration error although it does not become empty "after
trimming slashes": the source also trims whitespace (`.trim()`), which the
claim's error condition does not account for. -/
theorem c2_counterexample :
    (resolvePluginConfig "/srv/www/app" (.obj blankPublicInput)).snd
      = .error errPublicEmpty ∧
    dropLeadingSlashesL [' '] = [' '] ∧ dropTrailingSlashesL [' '] = [' '] :=
  ⟨rfl, rfl, rfl⟩

/-- C2 (amended): `resolvePluginConfig` throws exactly when: the value is
undefined; it is a non-object; it is an array; `namespace` is absent; `input`
is absent; or a user-supplied `publicDirectory` (resp. `buildDirectory`)
becomes empty after trimming **whitespace** and leading (resp. leading and
trailing) slashes.  The embedding carries no filesystem state, so the error
is raised before any filesystem access, and no result object accompanies an
error (fail-fast). -/
theorem c2_error_conditions (cwd : String) (v : ConfigValue) :
    (∃ e, (resolvePluginConfig cwd v).snd = .error e) ↔
      (v = .undef ∨ v = .notObject ∨ v = .arr ∨
        ∃ c, v = .obj c ∧
          (c.«namespace» = none ∨ c.input = none ∨
            (∃ s, c.publicDirectory = some s ∧ trimPublic s = "") ∨
            (∃ s, c.buildDirectory = some s ∧ trimDir s = ""))) := by
  cases v with
  | undef => simp [resolvePluginConfig]
  | notObject => simp [resolvePluginConfig]
  | arr => simp [resolvePluginConfig]
  | obj c =>
    cases hns : c.«namespace» with
    | none =>
      constructor
      · intro _
        exact Or.inr (Or.inr (Or.inr ⟨c, rfl, Or.inl hns⟩))
      · intro _
        exact ⟨errNamespaceMissing, by simp [resolvePluginConfig, hns]⟩
    | some ns =>
      cases hinp : c.input with
      | none =>
        constructor
        · intro _
          exact Or.inr (Or.inr (Or.inr ⟨c, rfl, Or.inr (Or.inl hinp)⟩))
        · intro _
          exact ⟨errInputMissing, by simp [resolvePluginConfig, hns, hinp]⟩
      | some inp =>
        by_cases hp : (mutatedPre inp c).publicDirectory = some ""
        · have hex : ∃ s, c.publicDirectory = some s ∧ trimPublic s = "" := by
            rw [mutatedPre_pub] at hp
            cases hpd : c.publicDirectory with
            | none => rw [hpd] at hp; simp at hp
            | some s =>
              rw [hpd] at hp
              simp only [Option.map_some', Option.some.injEq] at hp
              exact ⟨s, rfl, hp⟩
          constructor
          · intro _
            exact Or.inr (Or.inr (Or.inr ⟨c, rfl, Or.inr (Or.inr (Or.inl hex))⟩))
          · intro _
            exact ⟨errPublicEmpty, by simp [resolvePluginConfig, hns, hinp, hp]⟩
        · by_cases hb : (mutatedMid inp c).buildDirectory = some ""
          · have hex : ∃ s, c.buildDirectory = some s ∧ trimDir s = "" := by
              rw [mutatedMid_build] at hb
              cases hbd : c.buildDirectory with
              | none => rw [hbd] at hb; simp at hb
              | some s =>
                rw [hbd] at hb
                simp only [Option.map_some', Option.some.injEq] at hb
                exact ⟨s, rfl, hb⟩
            constructor
            · intro _
              exact Or.inr (Or.inr (Or.inr ⟨c, rfl, Or.inr (Or.inr (Or.inr hex))⟩))
            · intro _
              refine ⟨errBuildEmpty, ?_⟩
              simp only [resolvePluginConfig, hns, hinp]
              rw [if_neg hp, if_pos hb]
          · constructor
            · rintro ⟨e, he⟩
              rw [resolve_obj_ok cwd c ns inp hns hinp hp hb] at he
              exact Except.noConfusion he
            · rintro (h | h | h | ⟨c', hc', hcond⟩)
              · exact ConfigValue.noConfusion h
              · exact ConfigValue.noConfusion h
              · exact ConfigValue.noConfusion h
              · obtain rfl : c' = c := (ConfigValue.obj.inj hc').symm
                rcases hcond with h | h | ⟨s, hs, ht⟩ | ⟨s, hs, ht⟩
                · rw [hns] at h; exact Option.noConfusion h
                · rw [hinp] at h; exact Option.noConfusion h
                · refine absurd ?_ hp
                  rw [mutatedPre_pub, hs]
                  simp [ht]
                · refine absurd ?_ hb
                  rw [mutatedMid_build, hs]
                  simp [ht]

/-- C7 counterexample: An environment defining `VITE_DEV_SERVER_KEY` as
the empty string: the variable *is* set, yet the source returns "no override"
(the empty string is falsy in JS), contradicting the claim's "no override
exactly when neither variable is set". -/
theorem c7_counterexample :
    resolveEnvironmentServerConfig (fun _ => none) (fun _ => none)
      [("VITE_DEV_SERVER_KEY", "")] = .ok none ∧
    envLookup [("VITE_DEV_SERVER_KEY", "")] "VITE_DEV_SERVER_KEY" = some "" :=
  ⟨rfl, rfl⟩

/-- C7 (amended): `resolveEnvironmentServerConfig` returns no override
exactly when neither `VITE_DEV_SERVER_KEY` nor `VITE_DEV_SERVER_CERT` is set
to a **non-empty** value (JS truthiness); if either is, it throws when either
referenced file does not exist on disk (an unset variable's "file" does not
exist), otherwise it throws when no non-empty host can be parsed from
`APP_URL`; on success it returns the parsed host (as bind host and HMR host)
and the TLS key/cert file contents. -/
theorem c7_env_server_config (parseHost : String → Option String) (fs : FsState)
    (env : Env) :
    (resolveEnvironmentServerConfig parseHost fs env = .ok none ↔
      (¬ truthyEnv (envLookup env "VITE_DEV_SERVER_KEY") ∧
       ¬ truthyEnv (envLookup env "VITE_DEV_SERVER_CERT"))) ∧
    ((truthyEnv (envLookup env "VITE_DEV_SERVER_KEY") ∨
      truthyEnv (envLookup env "VITE_DEV_SERVER_CERT")) →
      ((¬ existsSyncOpt fs (envLookup env "VITE_DEV_SERVER_KEY") ∨
        ¬ existsSyncOpt fs (envLookup env "VITE_DEV_SERVER_CERT")) →
        resolveEnvironmentServerConfig parseHost fs env = .error errCertificateFiles) ∧
      (existsSyncOpt fs (envLookup env "VITE_DEV_SERVER_KEY") →
       existsSyncOpt fs (envLookup env "VITE_DEV_SERVER_CERT") →
        ((resolveHostFromEnv parseHost env = none ∨
          resolveHostFromEnv parseHost env = some "") →
          resolveEnvironmentServerConfig parseHost fs env = .error errHostFromAppUrl) ∧
        (∀ host, resolveHostFromEnv parseHost env = some host → host ≠ "" →
          resolveEnvironmentServerConfig parseHost fs env =
            .ok (some ⟨host, host,
              readFileOpt fs (envLookup env "VITE_DEV_SERVER_KEY"),
              readFileOpt fs (envLookup env "VITE_DEV_SERVER_CERT")⟩)))) := by
  constructor
  · constructor
    · intro h
      by_cases h1 : ¬ truthyEnv (envLookup env "VITE_DEV_SERVER_KEY") ∧
          ¬ truthyEnv (envLookup env "VITE_DEV_SERVER_CERT")
      · exact h1
      · exfalso
        simp only [resolveEnvironmentServerConfig] at h
        rw [if_neg h1] at h
        by_cases h2 : ¬ existsSyncOpt fs (envLookup env "VITE_DEV_SERVER_KEY") ∨
            ¬ existsSyncOpt fs (envLookup env "VITE_DEV_SERVER_CERT")
        · rw [if_pos h2] at h; exact Except.noConfusion h
        · rw [if_neg h2] at h
          cases hh : resolveHostFromEnv parseHost env with
          | none => simp only [hh] at h; exact Except.noConfusion h
          | some host =>
            simp only [hh] at h
            by_cases h3 : host = ""
            · rw [if_pos h3] at h; exact Except.noConfusion h
            · rw [if_neg h3] at h; simp at h
    · intro h1
      simp only [resolveEnvironmentServerConfig]
      rw [if_pos h1]
  · intro htr
    have h1 : ¬ (¬ truthyEnv (envLookup env "VITE_DEV_SERVER_KEY") ∧
        ¬ truthyEnv (envLookup env "VITE_DEV_SERVER_CERT")) := by
      rcases htr with h | h
      · exact fun hc => hc.1 h
      · exact fun hc => hc.2 h
    constructor
    · intro h2
      simp only [resolveEnvironmentServerConfig]
      rw [if_neg h1, if_pos h2]
    · intro he1 he2
      have h2 : ¬ (¬ existsSyncOpt fs (envLookup env "VITE_DEV_SERVER_KEY") ∨
          ¬ existsSyncOpt fs (envLookup env "VITE_DEV_SERVER_CERT")) := by
        rintro (h | h)
        · exact h he1
        · exact h he2
      constructor
      · intro hh
        simp only [resolveEnvironmentServerConfig]
        rw [if_neg h1, if_neg h2]
        rcases hh with hh | hh
        · simp [hh]
        · simp [hh]
      · intro host hh hne
        simp only [resolveEnvironmentServerConfig]
        rw [if_neg h1, if_neg h2]
        simp only [hh]
        rw [if_neg hne]

/-- C7 witness: The success path at a concrete environment, filesystem and
URL parser. -/
theorem c7_witness :
    resolveEnvironmentServerConfig tlsParseHost tlsFs tlsEnv =
      .ok (some ⟨"example.test", "example.test", "KEYDATA", "CERTDATA"⟩) := by
  have h := c7_env_server_config tlsParseHost tlsFs tlsEnv
  have h2 := ((h.2 (Or.inl (by decide))).2 (by decide) (by decide)).2
    "example.test" rfl (by decide)
  exact h2

/-- Helper: the string-array branch of `resolveFullReloadConfig`. -/
lemma resolveFullReloadConfigs_strings (s0 : String) (ss : List String) :
    resolveFullReloadConfigs (.list ((s0 :: ss).map .str)) = [⟨s0 :: ss, none⟩] := by
  have hfm : ∀ l : List String,
      (l.map RefreshItem.str).filterMap
        (fun i => match i with | .str s => some s | .cfg _ => none) = l := by
    intro l
    induction l with
    | nil => rfl
    | cons x xs ih => simp only [List.map_cons, List.filterMap_cons, ih]
  simp [resolveFullReloadConfigs, hfm]

/-- C8: Refresh-spec normalization maps each accepted input shape to the
canonical list form: `refresh: true` yields `[{paths: ["resources/views/**"]}]`
(the fixed default glob set), a single string `s` yields `[{paths: [s]}]`, a
non-empty list of strings yields one entry holding exactly those paths, and
`refresh: false` or unset refresh yields no reload triggers. -/
theorem c8_refresh_normalization (cwd : String) (c : UserPluginConfig)
    (ns : String) (inp : InputVal)
    (hns : c.«namespace» = some ns) (hinp : c.input = some inp)
    (hpub : (mutatedPre inp c).publicDirectory ≠ some "")
    (hbuild : (mutatedMid inp c).buildDirectory ≠ some "") :
    (c.refresh = some (.bool true) →
      refreshTriggers cwd (.obj c) = .ok [⟨["resources/views/**"], none⟩]) ∧
    (∀ s, c.refresh = some (.str s) →
      refreshTriggers cwd (.obj c) = .ok [⟨[s], none⟩]) ∧
    (∀ s0 ss, c.refresh = some (.list ((s0 :: ss).map .str)) →
      refreshTriggers cwd (.obj c) = .ok [⟨s0 :: ss, none⟩]) ∧
    (c.refresh = some (.bool false) → refreshTriggers cwd (.obj c) = .ok []) ∧
    (c.refresh = none → refreshTriggers cwd (.obj c) = .ok []) := by
  have hbase : refreshTriggers cwd (.obj c) =
      .ok (resolveFullReloadConfigs ((mutatedFinal inp c).refresh.getD (.bool false))) := by
    unfold refreshTriggers
    rw [resolve_obj_ok cwd c ns inp hns hinp hpub hbuild]
    rfl
  have hrefresh : (mutatedFinal inp c).refresh =
      if c.refresh = some (.bool true) then some (.list [.cfg ⟨refreshPaths, none⟩])
      else c.refresh := by
    rw [mutatedFinal_eq]
  refine ⟨?_, ?_, ?_, ?_, ?_⟩
  · intro h
    rw [hbase, hrefresh, if_pos h]
    rfl
  · intro s h
    rw [hbase, hrefresh, if_neg (by simp [h]), h]
    rfl
  · intro s0 ss h
    rw [hbase, hrefresh, if_neg (by simp [h]), h]
    simp only [Option.getD_some]
    rw [resolveFullReloadConfigs_strings]
  · intro h
    rw [hbase, hrefresh, if_neg (by simp [h]), h]
    rfl
  · intro h
    rw [hbase, hrefresh, if_neg (by simp [h]), h]
    rfl

/-- C8 witness: `refresh: true` at a concrete config yields the default
glob set. -/
theorem c8_witness :
    refreshTriggers "/srv/www/app" (.obj refreshTrueInput) =
      .ok [⟨["resources/views/**"], none⟩] :=
  (c8_refresh_normalization "/srv/www/app" refreshTrueInput "ns" (.str "app.js")
    rfl rfl (by decide) (by decide)).1 rfl

/-- C10 counterexample: `resolvePluginConfig` mutates its argument: after
the call with `publicDirectory: "/foo/"`, the input object's
`publicDirectory` holds `"foo/"`, not its original value. -/
theorem c10_counterexample :
    (resolvePluginConfig "/srv/www/app" (.obj slashFooInput)).fst
      ≠ .obj slashFooInput := by
  intro h
  have h2 := congrArg (fun v => match v with
    | ConfigValue.obj c => c.publicDirectory
    | _ => none) h
  have h3 : some ("foo/" : String) = some "/foo/" := h2
  exact absurd (Option.some.inj h3) (by decide)

/-- C10 (amended): `resolvePluginConfig` performs no filesystem writes (its
embedding carries no filesystem state at all — creating the resolved
`publicDirectory` on disk is done only by the caller `wordpress`), but it does
mutate the input object in place: `publicDirectory`, `buildDirectory` and
`ssrOutputDirectory` are trimmed, `refresh: true` is replaced by the canonical
list form, and `ssr` is replaced by `input` when it equals the literal string
`"undefined"`; all other fields of the input (namespace, input, emptyOutDir,
hotFile, ssrExternal, transformOnServe) keep their original values, as the
record update below records. -/
theorem c10_mutation (cwd : String) (c : UserPluginConfig) (ns : String)
    (inp : InputVal)
    (hns : c.«namespace» = some ns) (hinp : c.input = some inp)
    (hpub : (mutatedPre inp c).publicDirectory ≠ some "")
    (hbuild : (mutatedMid inp c).buildDirectory ≠ some "") :
    (resolvePluginConfig cwd (.obj c)).fst = .obj
      { c with
        ssr := if c.ssr = some (.str "undefined") then some inp else c.ssr
        publicDirectory := c.publicDirectory.map trimPublic
        buildDirectory := c.buildDirectory.map trimDir
        ssrOutputDirectory := c.ssrOutputDirectory.map trimDir
        refresh := if c.refresh = some (.bool true)
                   then some (.list [.cfg ⟨refreshPaths, none⟩]) else c.refresh } := by
  rw [resolve_obj_ok cwd c ns inp hns hinp hpub hbuild]
  rw [← mutatedFinal_eq]

/-- C10 witness: The mutation at a concrete config: `publicDirectory`
`"public/"` (already slash-free at the front) and `ssrOutputDirectory`
`"/out/"` become `"public/"` and `"out"` in the input object. -/
theorem c10_witness :
    (resolvePluginConfig "/srv/www/app" (.obj slashWitnessInput)).fst = .obj
      { slashWitnessInput with
        publicDirectory := some "public/"
        ssrOutputDirectory := some "out" } := by
  have h := c10_mutation "/srv/www/app" slashWitnessInput "ns" (.str "app.js")
    rfl rfl (by decide) (by decide)
  rw [h]
  rfl

/-- C3 counterexample: For the minimal valid config (no optional fields),
the defaulted `publicDirectory` is the absolute path
`resolve(cwd + "/../../uploads/scw-vite-hmr/" + namespace)` — it *begins with
a slash* — and so does the `hotFile` derived from it, refuting the claimed
no-leading-slash invariant for defaulted fields. -/
theorem c3_counterexample :
    Except.map (fun r => r.publicDirectory)
      (resolvePluginConfig "/srv/www/app" (.obj minimalInput)).snd
      = .ok "/srv/uploads/scw-vite-hmr/ns" ∧
    Except.map (fun r => r.hotFile)
      (resolvePluginConfig "/srv/www/app" (.obj minimalInput)).snd
      = .ok "/srv/uploads/scw-vite-hmr/ns/hot" ∧
    startsWithSlash "/srv/uploads/scw-vite-hmr/ns" ∧
    startsWithSlash "/srv/uploads/scw-vite-hmr/ns/hot" :=
  ⟨rfl, rfl, rfl, rfl⟩

/-- C3 (amended): On success every optional field is present by
construction (`ResolvedPluginConfig` has no `Option` field), and the slash
invariants hold in this amended form: `buildDirectory` never begins or ends
with a slash; a *user-supplied* `publicDirectory` never begins with a slash
and then neither do the defaulted `ssrOutputDirectory` and `hotFile` derived
from it; a user-supplied `ssrOutputDirectory` never begins or ends with a
slash; and the defaulted `ssrOutputDirectory` never ends with a slash.  (The
defaulted `publicDirectory` is an absolute path beginning with a slash, as
are the fields derived from it, and a user-supplied `hotFile` is taken
verbatim — see the counterexample.) -/
theorem c3_path_invariants (cwd : String) (c : UserPluginConfig)
    (r : ResolvedPluginConfig)
    (h : (resolvePluginConfig cwd (.obj c)).snd = .ok r) :
    (¬ startsWithSlash r.buildDirectory ∧ ¬ endsWithSlash r.buildDirectory) ∧
    (c.publicDirectory.isSome → ¬ startsWithSlash r.publicDirectory) ∧
    (c.ssrOutputDirectory.isSome →
      ¬ startsWithSlash r.ssrOutputDirectory ∧ ¬ endsWithSlash r.ssrOutputDirectory) ∧
    (c.ssrOutputDirectory = none → ¬ endsWithSlash r.ssrOutputDirectory) ∧
    (c.publicDirectory.isSome → c.ssrOutputDirectory = none →
      ¬ startsWithSlash r.ssrOutputDirectory) ∧
    (c.publicDirectory.isSome → c.hotFile = none → ¬ startsWithSlash r.hotFile) := by
  obtain ⟨ns, inp, hns, hinp, hpub, hbuild, hr⟩ := resolve_obj_ok_inv cwd c r h
  subst hr
  have hbd : (resolvedOf cwd ns inp (mutatedFinal inp c)).buildDirectory
      = (c.buildDirectory.map trimDir).getD "build" := by
    rw [mutatedFinal_eq]; rfl
  have hpd : (resolvedOf cwd ns inp (mutatedFinal inp c)).publicDirectory
      = (c.publicDirectory.map trimPublic).getD (defaultPublicDirectory cwd ns) := by
    rw [mutatedFinal_eq]; rfl
  have hsd : (resolvedOf cwd ns inp (mutatedFinal inp c)).ssrOutputDirectory
      = (c.ssrOutputDirectory.map trimDir).getD
          (pathJoin ((c.publicDirectory.map trimPublic).getD
            (defaultPublicDirectory cwd ns)) "ssr") := by
    rw [mutatedFinal_eq]; rfl
  have hhf : (resolvedOf cwd ns inp (mutatedFinal inp c)).hotFile
      = c.hotFile.getD
          (pathJoin ((c.publicDirectory.map trimPublic).getD
            (defaultPublicDirectory cwd ns)) "hot") := by
    rw [mutatedFinal_eq]; rfl
  refine ⟨?_, ?_, ?_, ?_, ?_, ?_⟩
  · rw [hbd]
    cases hcb : c.buildDirectory with
    | none => exact ⟨by decide, by decide⟩
    | some u =>
      simp only [Option.map_some', Option.getD_some]
      exact ⟨trimDir_head u, trimDir_last u⟩
  · intro hps
    obtain ⟨u, hu⟩ := Option.isSome_iff_exists.mp hps
    rw [hpd, hu]
    simp only [Option.map_some', Option.getD_some]
    exact trimPublic_head u
  · intro hss
    obtain ⟨u, hu⟩ := Option.isSome_iff_exists.mp hss
    rw [hsd, hu]
    simp only [Option.map_some', Option.getD_some]
    exact ⟨trimDir_head u, trimDir_last u⟩
  · intro hnone
    rw [hsd, hnone]
    simp only [Option.map_none', Option.getD_none]
    exact pathJoin_single_last _ "ssr" ['s', 's', 'r'] (by decide) (by decide)
      (by decide) (by decide)
  · intro hps hnone
    obtain ⟨u, hu⟩ := Option.isSome_iff_exists.mp hps
    rw [hsd, hnone, hu]
    simp only [Option.map_none', Option.map_some', Option.getD_none, Option.getD_some]
    exact pathJoin_rel_head _ _ (trimPublic_head u)
  · intro hps hhnone
    obtain ⟨u, hu⟩ := Option.isSome_iff_exists.mp hps
    rw [hhf, hhnone, hu]
    simp only [Option.map_some', Option.getD_none, Option.getD_some]
    exact pathJoin_rel_head _ _ (trimPublic_head u)

/-- C3 witness: The invariants at a concrete config with user-supplied
`publicDirectory` and defaulted `hotFile`: the resolved `publicDirectory` and
`hotFile` do not begin with a slash. -/
theorem c3_witness :
    ¬ startsWithSlash ("public/" : String) ∧
    ¬ startsWithSlash ("public/hot" : String) := by
  have h := c3_path_invariants "/srv/www/app" slashWitnessInput
    (resolvedOf "/srv/www/app" "ns" (.str "app.js")
      (mutatedFinal (.str "app.js") slashWitnessInput)) rfl
  exact ⟨h.2.1 (by decide), h.2.2.2.2.2 (by decide) rfl⟩

/-- C5 counterexample: `resolvePluginConfig` is not idempotent: with the
minimal valid config the resolved `publicDirectory` is the absolute default
`"/srv/uploads/scw-vite-hmr/ns"`, and feeding the output back strips that
leading slash, producing a different `publicDirectory`. -/
theorem c5_counterexample :
    Except.map (fun r => r.publicDirectory)
      (resolvePluginConfig "/srv/www/app" (.obj minimalInput)).snd
      = .ok "/srv/uploads/scw-vite-hmr/ns" ∧
    Except.map (fun r => r.publicDirectory)
      (resolvePluginConfig "/srv/www/app"
        (.obj (toUserConfig (resolvedOf "/srv/www/app" "ns" (.str "app.js")
          (mutatedFinal (.str "app.js") minimalInput))))).snd
      = .ok "srv/uploads/scw-vite-hmr/ns" ∧
    ("srv/uploads/scw-vite-hmr/ns" : String) ≠ "/srv/uploads/scw-vite-hmr/ns" :=
  ⟨rfl, rfl, by decide⟩

/-- C5 (amended): `resolvePluginConfig` is idempotent exactly on resolved
configs that are fixed points of its normalization: if the resolved
`publicDirectory`, `buildDirectory` and `ssrOutputDirectory` are unchanged by
re-trimming (and the first two are non-empty), `ssr` is not the literal
string `"undefined"` and `refresh` is not boolean `true`, then re-resolving
the output succeeds, leaves the re-fed object unmutated, and returns an equal
result.  Outputs with a *defaulted* `publicDirectory` are not fixed points
(the absolute default loses its leading slash on the second pass — see the
counterexample), so idempotence fails in general. -/
theorem c5_idempotence (cwd : String) (r : ResolvedPluginConfig)
    (hpubfix : trimPublic r.publicDirectory = r.publicDirectory)
    (hpubne : r.publicDirectory ≠ "")
    (hbuildfix : trimDir r.buildDirectory = r.buildDirectory)
    (hbuildne : r.buildDirectory ≠ "")
    (hssrofix : trimDir r.ssrOutputDirectory = r.ssrOutputDirectory)
    (hssr : r.ssr ≠ .str "undefined")
    (hrefresh : r.refresh ≠ .bool true) :
    resolvePluginConfig cwd (.obj (toUserConfig r)) =
      (.obj (toUserConfig r), .ok r) := by
  have hp : (mutatedPre r.input (toUserConfig r)).publicDirectory ≠ some "" := by
    rw [mutatedPre_pub]
    simp only [toUserConfig, Option.map_some', hpubfix]
    exact fun hh => hpubne (Option.some.inj hh)
  have hb : (mutatedMid r.input (toUserConfig r)).buildDirectory ≠ some "" := by
    rw [mutatedMid_build]
    simp only [toUserConfig, Option.map_some', hbuildfix]
    exact fun hh => hbuildne (Option.some.inj hh)
  have hmf : mutatedFinal r.input (toUserConfig r) = toUserConfig r := by
    rw [mutatedFinal_eq]
    simp only [toUserConfig, Option.map_some', hpubfix, hbuildfix, hssrofix,
      Option.some.injEq]
    rw [if_neg hssr, if_neg hrefresh]
  rw [resolve_obj_ok cwd (toUserConfig r) r.«namespace» r.input rfl rfl hp hb, hmf]
  rfl

/-- C5 witness: Idempotence at a concrete, fully user-supplied resolved
config. -/
theorem c5_witness :
    resolvePluginConfig "/srv/www/app" (.obj (toUserConfig normalResolved)) =
      (.obj (toUserConfig normalResolved), .ok normalResolved) :=
  c5_idempotence "/srv/www/app" normalResolved (by decide) (by decide) (by decide)
    (by decide) (by decide) (by decide) (by decide)
